import Mathlib

/-!
Shallow embedding of the icedrop core file-transfer protocol
(`src/core/icedrop-core/src/handlers/file_transfer.rs` and
`src/core/icedrop-core/src/endpoint.rs`).

Bytes are modelled as `Nat` (values below 256 where produced by the code);
Rust `Vec<u8>` becomes `List Nat`.  Operations that can panic in Rust
(out-of-range slice indexing, `byteorder` reads on short buffers,
`Vec::split_off` past the end) are modelled in `Option`, with `none`
standing for a panic.
-/

namespace Icedrop

/-- Little-endian encoding of a `u16` (byteorder `LittleEndian::write_u16`). -/
def u16ToLe (n : Nat) : List Nat :=
  [n % 256, n / 256 % 256]

/-- Little-endian encoding of a `u32` (byteorder `LittleEndian::write_u32`). -/
def u32ToLe (n : Nat) : List Nat :=
  [n % 256, n / 256 % 256, n / 65536 % 256, n / 16777216 % 256]

/-- Value of the first two bytes of a buffer read little-endian
(byteorder `LittleEndian::read_u16` on a buffer of length at least 2). -/
def leToU16 (b : List Nat) : Nat :=
  b.getD 0 0 + 256 * b.getD 1 0

/-- Value of the first four bytes of a buffer read little-endian
(byteorder `LittleEndian::read_u32` on a buffer of length at least 4). -/
def leToU32 (b : List Nat) : Nat :=
  b.getD 0 0 + 256 * b.getD 1 0 + 65536 * b.getD 2 0 + 16777216 * b.getD 3 0

/-- Model of byteorder `LittleEndian::read_u32(&buf)`: panics (`none`)
when fewer than 4 bytes are available. -/
def readU32LE (b : List Nat) : Option Nat :=
  if 4 ≤ b.length then some (leToU32 b) else none

/-- Model of the Rust slice expression `buf[lo..hi]`: panics (`none`) when
the range is out of bounds. -/
def slice (b : List Nat) (lo hi : Nat) : Option (List Nat) :=
  if lo ≤ hi ∧ hi ≤ b.length then some ((b.take hi).drop lo) else none

/-- Model of `Vec::split_off(n)` (the returned tail): panics (`none`) when
`n` exceeds the length. -/
def splitOff (b : List Nat) (n : Nat) : Option (List Nat) :=
  if n ≤ b.length then some (b.drop n) else none

/-- Model of `Vec::resize(n, fill)`: truncates or pads with `fill`. -/
def listResize (b : List Nat) (n : Nat) (fill : Nat) : List Nat :=
  if n ≤ b.length then b.take n else b ++ List.replicate (n - b.length) fill

/-- Result type of `Frame::try_parse` (`FrameParsingResult` in `proto`):
`Ok` carries the parsed frame, `Skip` returns the unconsumed buffer to the
dispatcher, `Err` is a parse error (the boxed error value is not modelled). -/
inductive FrameParsingResult (F : Type) where
  | Ok (frame : F)
  | Skip (buf : List Nat)
  | Err
deriving DecidableEq

/-- Payload of frame type 4 (`FileTransferAckFrame`). -/
structure FileTransferAckFrame where
  segment_idx : Nat
deriving DecidableEq, Repr

/-- Model of `FileTransferAckFrame::try_parse`: skip unless the type tag is
4, then read a `u32` from the head of the buffer (a panic — `none` — when
the buffer is shorter than 4 bytes). -/
def FileTransferAckFrame.try_parse (frame_type : Nat) (buf : List Nat) :
    Option (FrameParsingResult FileTransferAckFrame) :=
  if frame_type ≠ 4 then some (.Skip buf)
  else (readU32LE buf).map fun segment_idx => .Ok ⟨segment_idx⟩

/-- Model of `FileTransferAckFrame::to_bytes`. -/
def FileTransferAckFrame.to_bytes (f : FileTransferAckFrame) : List Nat :=
  u32ToLe f.segment_idx

/-- Payload of frame type 3 (`FileTransferDataFrame`). -/
structure FileTransferDataFrame where
  segment_idx : Nat
  chunk_size : Nat
  data : List Nat
deriving DecidableEq, Repr

/-- Model of `FileTransferDataFrame::try_parse`: skip unless the type tag
is 3; read `segment_idx` from `buf[0..4]` and `chunk_size` from
`buf[4..8]` (panicking — `none` — when the buffer is shorter than 8
bytes), take the rest of the buffer with `split_off(8)` and `resize` it to
`chunk_size`, zero-filling when fewer bytes remain than declared. -/
def FileTransferDataFrame.try_parse (frame_type : Nat) (buf : List Nat) :
    Option (FrameParsingResult FileTransferDataFrame) :=
  if frame_type ≠ 3 then some (.Skip buf)
  else do
    let segment_idx ← slice buf 0 4 >>= readU32LE
    let chunk_size ← slice buf 4 8 >>= readU32LE
    let tail ← splitOff buf 8
    pure (.Ok ⟨segment_idx, chunk_size, listResize tail chunk_size 0⟩)

/-- Model of `FileTransferDataFrame::to_bytes`. -/
def FileTransferDataFrame.to_bytes (f : FileTransferDataFrame) : List Nat :=
  u32ToLe f.segment_idx ++ u32ToLe f.chunk_size ++ f.data

/-- Model of `FrameWithHeader::to_bytes` in `endpoint.rs`, abstracted over
the frame's type tag and payload bytes: a 2-byte little-endian type tag, a
4-byte little-endian payload length, then the payload. -/
def frameWithHeaderToBytes (frame_type : Nat) (payload : List Nat) : List Nat :=
  u16ToLe frame_type ++ u32ToLe payload.length ++ payload

/-- Model of the header/payload decoding half of
`Endpoint::handle_incoming_frames`: read exactly 6 header bytes (an error
— `none` — when the stream is shorter), split them into the type tag and
payload length, then read exactly `payload_len` payload bytes (again
`none` on a short stream).  Dispatch to handlers is not part of this
function. -/
def handleIncomingFrame (stream : List Nat) : Option (Nat × List Nat) :=
  if stream.length < 6 then none
  else
    let frame_type := leToU16 (stream.take 2)
    let frame_len := leToU32 ((stream.drop 2).take 4)
    if (stream.drop 6).length < frame_len then none
    else some (frame_type, (stream.drop 6).take frame_len)

/-- Events delivered to the sender's callback (`FileTransferEvent`). -/
inductive FileTransferEvent where
  | SegmentSent (idx : Nat) (bytes : Nat)
  | Complete
deriving DecidableEq, Repr

/-- Chunk size used by `FileTransferNextHandler::send_segment`
(`let chunk_size = 1024 * 512`). -/
def chunkSizeLimit : Nat := 1024 * 512

/-- State of `FileTransferNextHandler` relevant to ack handling: the
`cur_segment` field (`FileTransferNextHandler::new` initialises it to 0). -/
structure SenderHandlerState where
  cur_segment : Nat
deriving DecidableEq, Repr

/-- Initial sender handler state (`FileTransferNextHandler::new`). -/
def FileTransferNextHandler.init : SenderHandlerState := ⟨0⟩

/-- Model of the `FileTransferAckFrame` branch of
`FileTransferNextHandler::handle_frame`: a panic
(`"Unexpected next segment."`, modelled as `none`) when the acked index is
below `cur_segment`; otherwise `cur_segment` is set to the acked index and
the callback receives `SegmentSent(cur_segment, cur_segment * 1024 * 512)`. -/
def handleAckFrame (st : SenderHandlerState) (frame : FileTransferAckFrame) :
    Option (SenderHandlerState × List FileTransferEvent) :=
  if frame.segment_idx < st.cur_segment then none
  else
    some (⟨frame.segment_idx⟩,
      [.SegmentSent frame.segment_idx (frame.segment_idx * chunkSizeLimit)])

/-- Model of the sending loop spawned by the `else` (handshake-response)
branch of `FileTransferNextHandler::handle_frame`, together with
`send_segment`: starting from `segment_id`, each iteration reads up to
`chunkSizeLimit` bytes from the file, emits a `FileTransferDataFrame`
whose `chunk_size` is the number of bytes read, increments `segment_id`,
and stops after emitting a frame with zero bytes read (EOF).  The second
component collects the events the loop delivers to the callback; the loop
body invokes no callback, so no events are ever appended. -/
def sendLoop (file : List Nat) (segment_id : Nat) :
    List FileTransferDataFrame × List FileTransferEvent :=
  if h : file = [] then ([⟨segment_id, 0, []⟩], [])
  else
    let chunk := file.take chunkSizeLimit
    let rest := sendLoop (file.drop chunkSizeLimit) (segment_id + 1)
    (⟨segment_id, chunk.length, chunk⟩ :: rest.1, rest.2)
termination_by file.length
decreasing_by
  have hpos : 0 < file.length := List.length_pos.mpr h
  simp only [List.length_drop, chunkSizeLimit]
  omega

/-- Frames emitted over a whole session by the sender's loop, which starts
with `let mut segment_id = 0`. -/
def sentFrames (file : List Nat) : List FileTransferDataFrame :=
  (sendLoop file 0).1

/-- Events the sender's loop delivers over a whole session. -/
def sentEvents (file : List Nat) : List FileTransferEvent :=
  (sendLoop file 0).2

/-- Outbound frames of `FileTransferReceivingHandler`
(`FileTransferAckOrEndFrame`). -/
inductive AckOrEnd where
  | ack (segment_idx : Nat)
  | endSession
deriving DecidableEq, Repr

/-- Test for the ack variant of `AckOrEnd`. -/
def AckOrEnd.isAck : AckOrEnd → Bool
  | .ack _ => true
  | .endSession => false

/-- State of `FileTransferReceivingHandler`: the output file contents and
the `windowed_recv_segments` counter (initially 0). -/
structure RecvState where
  file : List Nat
  windowed_recv_segments : Nat
deriving DecidableEq, Repr

/-- Model of `FileTransferReceivingHandler::handle_frame` on one data
frame: a frame with `chunk_size == 0` flushes the file and enqueues
`EndSession` without touching the state; otherwise the frame's data is
appended to the file and `windowed_recv_segments` is incremented, and when
it reaches 8 it is reset to 0 and one ack carrying
`frame.segment_idx + 1` is enqueued. -/
def recvStep (st : RecvState) (frame : FileTransferDataFrame) :
    RecvState × List AckOrEnd :=
  if frame.chunk_size = 0 then (st, [.endSession])
  else
    let file := st.file ++ frame.data
    let w := st.windowed_recv_segments + 1
    if 8 ≤ w then (⟨file, 0⟩, [.ack (frame.segment_idx + 1)])
    else (⟨file, w⟩, [])

/-- Iterated `recvStep` over a list of inbound data frames, collecting the
outbound frames in order. -/
def recvRun (st : RecvState) : List FileTransferDataFrame → RecvState × List AckOrEnd
  | [] => (st, [])
  | frame :: rest =>
    let out := recvStep st frame
    let outRest := recvRun out.1 rest
    (outRest.1, out.2 ++ outRest.2)

/-- Unfolding of `sendLoop` at EOF: the loop reads zero bytes, emits the
terminal empty frame and stops. -/
theorem sendLoop_nil (seg : Nat) : sendLoop [] seg = ([⟨seg, 0, []⟩], []) := by
  unfold sendLoop
  simp

/-- Unfolding of `sendLoop` on a non-empty file: one chunk of up to
`chunkSizeLimit` bytes is read and emitted, then the loop continues on the
remainder with the next segment id. -/
theorem sendLoop_ne_nil {file : List Nat} (h : file ≠ []) (seg : Nat) :
    sendLoop file seg =
      (⟨seg, (file.take chunkSizeLimit).length, file.take chunkSizeLimit⟩ ::
         (sendLoop (file.drop chunkSizeLimit) (seg + 1)).1,
       (sendLoop (file.drop chunkSizeLimit) (seg + 1)).2) := by
  rw [sendLoop]
  simp [h]

/-- Arithmetic step for counting chunks of size `c`. -/
theorem chunk_div_step {L c : Nat} (hL : 0 < L) (hc : 0 < c) :
    (L - c + (c - 1)) / c + 1 = (L + (c - 1)) / c := by
  rcases le_or_lt L c with hle | hlt
  · have h1 : L - c = 0 := Nat.sub_eq_zero_of_le hle
    have h2 : (c - 1) / c = 0 := Nat.div_eq_of_lt (by omega)
    have h3 : L + (c - 1) = (L - 1) + c := by omega
    have h4 : (L - 1) / c = 0 := Nat.div_eq_of_lt (by omega)
    rw [h1, Nat.zero_add, h2, h3, Nat.add_div_right _ hc, h4]
  · have h3 : L + (c - 1) = (L - c + (c - 1)) + c := by omega
    rw [h3, Nat.add_div_right _ hc]

/-- Number of data frames the sender's loop emits for a file of length
`L`: `(L + chunkSizeLimit - 1) / chunkSizeLimit` full-or-partial chunks
plus the terminal empty frame. -/
theorem sendLoop_length (file : List Nat) (seg : Nat) :
    (sendLoop file seg).1.length =
      (file.length + (chunkSizeLimit - 1)) / chunkSizeLimit + 1 := by
  by_cases h : file = []
  · subst h
    rw [sendLoop_nil]
    simp [chunkSizeLimit]
  · rw [sendLoop_ne_nil h]
    simp only [List.length_cons]
    rw [sendLoop_length (file.drop chunkSizeLimit) (seg + 1)]
    have hpos : 0 < file.length := List.length_pos.mpr h
    simp only [List.length_drop]
    have harith := chunk_div_step (c := chunkSizeLimit) hpos (by decide)
    omega
termination_by file.length
decreasing_by
  have hpos : 0 < file.length := List.length_pos.mpr h
  simp only [List.length_drop, chunkSizeLimit]
  omega

/-- The sender's loop never delivers any event to the callback: its body
contains no callback invocation. -/
theorem sendLoop_events (file : List Nat) (seg : Nat) :
    (sendLoop file seg).2 = [] := by
  by_cases h : file = []
  · subst h
    rw [sendLoop_nil]
  · rw [sendLoop_ne_nil h]
    exact sendLoop_events (file.drop chunkSizeLimit) (seg + 1)
termination_by file.length
decreasing_by
  have hpos : 0 < file.length := List.length_pos.mpr h
  simp only [List.length_drop, chunkSizeLimit]
  omega

/-- Segment indices emitted by the loop starting at `seg` are the
consecutive run `seg, seg + 1, …`. -/
theorem sendLoop_segments (file : List Nat) (seg : Nat) :
    (sendLoop file seg).1.map FileTransferDataFrame.segment_idx =
      List.range' seg (sendLoop file seg).1.length := by
  by_cases h : file = []
  · subst h
    rw [sendLoop_nil]
    simp
  · rw [sendLoop_ne_nil h]
    simp only [List.map_cons, List.length_cons, List.range'_succ]
    rw [sendLoop_segments (file.drop chunkSizeLimit) (seg + 1)]
termination_by file.length
decreasing_by
  have hpos : 0 < file.length := List.length_pos.mpr h
  simp only [List.length_drop, chunkSizeLimit]
  omega

/-- Exactly one frame of a session has `chunk_size = 0`. -/
theorem sendLoop_countP_terminal (file : List Nat) (seg : Nat) :
    ((sendLoop file seg).1.countP fun fr => fr.chunk_size == 0) = 1 := by
  by_cases h : file = []
  · subst h
    rw [sendLoop_nil]
    simp
  · rw [sendLoop_ne_nil h]
    rw [List.countP_cons]
    have hch : (file.take chunkSizeLimit).length ≠ 0 := by
      have hpos : 0 < file.length := List.length_pos.mpr h
      simp only [List.length_take, chunkSizeLimit]
      omega
    rw [sendLoop_countP_terminal (file.drop chunkSizeLimit) (seg + 1)]
    simp [hch]
    exact ⟨by decide, h⟩
termination_by file.length
decreasing_by
  have hpos : 0 < file.length := List.length_pos.mpr h
  simp only [List.length_drop, chunkSizeLimit]
  omega

/-- The last frame of a session is the terminal one (`chunk_size = 0`). -/
theorem sendLoop_getLast (file : List Nat) (seg : Nat) :
    ((sendLoop file seg).1.getLast?).map FileTransferDataFrame.chunk_size = some 0 := by
  by_cases h : file = []
  · subst h
    rw [sendLoop_nil]
    rfl
  · rw [sendLoop_ne_nil h]
    have hne : (sendLoop (file.drop chunkSizeLimit) (seg + 1)).1 ≠ [] := by
      intro hnil
      have hlen := sendLoop_length (file.drop chunkSizeLimit) (seg + 1)
      rw [hnil] at hlen
      simp at hlen
    obtain ⟨b, t, hbt⟩ := List.exists_cons_of_ne_nil hne
    have hrec := sendLoop_getLast (file.drop chunkSizeLimit) (seg + 1)
    rw [hbt] at hrec ⊢
    rw [List.getLast?_cons_cons]
    exact hrec
termination_by file.length
decreasing_by
  have hpos : 0 < file.length := List.length_pos.mpr h
  simp only [List.length_drop, chunkSizeLimit]
  omega

/-- On a non-terminal frame the receiver appends the frame's data to the
output file, whatever happens to the ack counter. -/
theorem recvStep_file (st : RecvState) (fr : FileTransferDataFrame)
    (h : fr.chunk_size ≠ 0) :
    (recvStep st fr).1.file = st.file ++ fr.data := by
  unfold recvStep
  rw [if_neg h]
  by_cases hw : 8 ≤ st.windowed_recv_segments + 1 <;> simp [hw]

/-- Behaviour of the receiver on one non-terminal data frame, written out:
the data is appended, and the ack counter either wraps from 7 to 0 with a
single ack carrying `segment_idx + 1`, or is merely incremented. -/
theorem recvStep_nonterminal (st : RecvState) (fr : FileTransferDataFrame)
    (h : fr.chunk_size ≠ 0) :
    recvStep st fr =
      if 7 ≤ st.windowed_recv_segments then
        (⟨st.file ++ fr.data, 0⟩, [.ack (fr.segment_idx + 1)])
      else (⟨st.file ++ fr.data, st.windowed_recv_segments + 1⟩, []) := by
  unfold recvStep
  rw [if_neg h]
  by_cases hw : 8 ≤ st.windowed_recv_segments + 1
  · rw [if_pos hw, if_pos (by omega)]
  · rw [if_neg hw, if_neg (by omega)]

/-- Feeding the frames of a whole sender session into the receiver appends
exactly the file's bytes to the receiver's output file. -/
theorem recvRun_sendLoop (file : List Nat) (st : RecvState) (seg : Nat) :
    (recvRun st (sendLoop file seg).1).1.file = st.file ++ file := by
  by_cases h : file = []
  · subst h
    rw [sendLoop_nil]
    simp [recvRun, recvStep]
  · rw [sendLoop_ne_nil h]
    have hch : (file.take chunkSizeLimit).length ≠ 0 := by
      have hpos : 0 < file.length := List.length_pos.mpr h
      simp only [List.length_take, chunkSizeLimit]
      omega
    simp only [recvRun]
    rw [recvRun_sendLoop (file.drop chunkSizeLimit) _ (seg + 1)]
    rw [recvStep_file _ _ hch]
    rw [List.append_assoc, List.take_append_drop]
termination_by file.length
decreasing_by
  have hpos : 0 < file.length := List.length_pos.mpr h
  simp only [List.length_drop, chunkSizeLimit]
  omega

/-- Running the receiver from window state `w < 8` over non-terminal
frames emits `(w + S) / 8` outbound frames. -/
theorem recvRun_ack_count (frames : List FileTransferDataFrame) :
    ∀ (f : List Nat) (w : Nat), (∀ fr ∈ frames, fr.chunk_size ≠ 0) → w < 8 →
    (recvRun ⟨f, w⟩ frames).2.length = (w + frames.length) / 8 := by
  induction frames with
  | nil =>
    intro f w h hw
    simp [recvRun]
    omega
  | cons fr rest ih =>
    intro f w h hw
    have hfr : fr.chunk_size ≠ 0 := h fr (by simp)
    have hrest : ∀ g ∈ rest, g.chunk_size ≠ 0 := fun g hg => h g (by simp [hg])
    simp only [recvRun]
    rw [recvStep_nonterminal _ _ hfr]
    by_cases hw7 : 7 ≤ w
    · rw [if_pos (by simpa using hw7)]
      simp only [List.length_append, List.length_cons, List.length_nil]
      rw [ih (f ++ fr.data) 0 hrest (by omega)]
      have hd := Nat.add_div_right rest.length (show 0 < 8 by decide)
      omega
    · rw [if_neg (by simpa using hw7)]
      simp only [List.nil_append, List.length_cons]
      rw [ih (f ++ fr.data) (w + 1) hrest (by omega)]
      have harg : w + 1 + rest.length = w + (rest.length + 1) := by omega
      rw [harg]

/-- Non-terminal frames never make the receiver emit `EndSession`. -/
theorem recvRun_all_acks (frames : List FileTransferDataFrame) :
    ∀ (st : RecvState), (∀ fr ∈ frames, fr.chunk_size ≠ 0) →
    ∀ o ∈ (recvRun st frames).2, o.isAck = true := by
  induction frames with
  | nil =>
    intro st h o ho
    simp [recvRun] at ho
  | cons fr rest ih =>
    intro st h o ho
    have hfr : fr.chunk_size ≠ 0 := h fr (by simp)
    simp only [recvRun, List.mem_append] at ho
    rcases ho with ho | ho
    · rw [recvStep_nonterminal _ _ hfr] at ho
      by_cases hw : 7 ≤ st.windowed_recv_segments
      · rw [if_pos hw] at ho
        simp at ho
        subst ho
        rfl
      · rw [if_neg hw] at ho
        simp at ho
    · exact ih (recvStep st fr).1 (fun g hg => h g (by simp [hg])) o ho

/-- Session frame count, stated on `sentFrames`. -/
theorem sentFrames_length (file : List Nat) :
    (sentFrames file).length =
      (file.length + (chunkSizeLimit - 1)) / chunkSizeLimit + 1 := by
  unfold sentFrames
  exact sendLoop_length file 0

/-- C1: for every input file of length `L ≥ 0`, feeding the
`FileTransferData` frames produced by the sender's send-segment loop, in
order, to the receiver's data-frame handler yields an output file of
length exactly `L` whose content is byte-identical to the input file. -/
theorem file_transfer_roundtrip (file : List Nat) :
    (recvRun ⟨[], 0⟩ (sentFrames file)).1.file = file ∧
    (recvRun ⟨[], 0⟩ (sentFrames file)).1.file.length = file.length := by
  have h := recvRun_sendLoop file ⟨[], 0⟩ 0
  simp only [List.nil_append] at h
  unfold sentFrames
  exact ⟨h, by rw [h]⟩

/-- C2 (counterexample): the sender's loop emits every frame of the
session with no window gating at all — for a file of nine full chunks it
emits 10 data frames although the claim's schedule grants a peak window of
only 8 before the first ack; there is no `sending_window` in the code. -/
theorem sending_window_counterexample :
    8 < (sentFrames (List.replicate (9 * chunkSizeLimit) 0)).length ∧
    (sentFrames (List.replicate (9 * chunkSizeLimit) 0)).length = 10 := by
  have h := sentFrames_length (List.replicate (9 * chunkSizeLimit) 0)
  rw [List.length_replicate] at h
  rw [h]
  constructor <;> norm_num [chunkSizeLimit]

/-- C2 (amended): the sender maintains no sending window; its loop emits
all `(L + chunkSizeLimit - 1) / chunkSizeLimit + 1` data frames of an
`L`-byte file in one burst without waiting for any ack, so the number of
data frames in flight can exceed 64 whenever the file has at least 65
chunks. -/
theorem sending_window_amended (file : List Nat) :
    (sentFrames file).length =
      (file.length + (chunkSizeLimit - 1)) / chunkSizeLimit + 1 ∧
    (65 * chunkSizeLimit ≤ file.length → 64 < (sentFrames file).length) := by
  have hlen := sentFrames_length file
  refine ⟨hlen, fun h65 => ?_⟩
  rw [hlen]
  have h65' : 65 ≤ (file.length + (chunkSizeLimit - 1)) / chunkSizeLimit := by
    rw [Nat.le_div_iff_mul_le (by decide)]
    have hc : chunkSizeLimit - 1 + 1 = chunkSizeLimit := by decide
    omega
  omega

/-- C2 (witness for the amended claim): a file of 65 full chunks puts more
than 64 data frames in flight. -/
theorem sending_window_amended_witness :
    64 < (sentFrames (List.replicate (65 * chunkSizeLimit) 0)).length :=
  (sending_window_amended (List.replicate (65 * chunkSizeLimit) 0)).2
    (by rw [List.length_replicate])

/-- C3 (counterexample): for the one-byte file `[0x5A]` the emitted
segment indices are `[0, 1]`, not the `[1, 2]` required by the claim that
the counter starts at 1. -/
theorem segment_indices_counterexample :
    (sentFrames [90]).map FileTransferDataFrame.segment_idx = [0, 1] ∧
    (sentFrames [90]).map FileTransferDataFrame.segment_idx ≠ [1, 2] := by
  have h1 : (sentFrames [90]).map FileTransferDataFrame.segment_idx = [0, 1] := by
    unfold sentFrames
    rw [sendLoop_ne_nil (by decide)]
    rw [List.take_of_length_le (by decide), List.drop_eq_nil_of_le (by decide)]
    rw [sendLoop_nil]
    simp
  exact ⟨h1, by rw [h1]; decide⟩

/-- C3 (amended): across any session the `segment_idx` values of the
emitted `FileTransferData` frames are `0, 1, 2, …` with no gaps and no
repeats (the loop's segment counter starts at 0), and the emitted sequence
contains exactly one terminal frame with `chunk_size = 0`, which comes
last. -/
theorem segment_indices_amended (file : List Nat) :
    (sentFrames file).map FileTransferDataFrame.segment_idx =
      List.range (sentFrames file).length ∧
    ((sentFrames file).countP fun fr => fr.chunk_size == 0) = 1 ∧
    ((sentFrames file).getLast?).map FileTransferDataFrame.chunk_size = some 0 := by
  refine ⟨?_, sendLoop_countP_terminal file 0, sendLoop_getLast file 0⟩
  rw [List.range_eq_range']
  exact sendLoop_segments file 0

/-- C4 (counterexample): an ack strictly above `cur_segment` — acking
"into the future" — is accepted (the claim demands a fatal
ProtocolViolation), while an ack strictly below `cur_segment` — legal per
the claim — makes the handler panic (`"Unexpected next segment."`). -/
theorem ack_check_counterexample :
    handleAckFrame ⟨1⟩ ⟨2⟩ =
      some (⟨2⟩, [FileTransferEvent.SegmentSent 2 (2 * chunkSizeLimit)]) ∧
    handleAckFrame ⟨1⟩ ⟨0⟩ = none := by
  constructor <;> decide

/-- C4 (amended): the sender's handler panics on an ack with
`segment_idx < cur_segment` and accepts any ack with
`segment_idx ≥ cur_segment` (including those acking into the future),
setting `cur_segment` to the acked index and firing `SegmentSent`. -/
theorem ack_check_amended (cur idx : Nat) :
    (handleAckFrame ⟨cur⟩ ⟨idx⟩ = none ↔ idx < cur) ∧
    (cur ≤ idx → handleAckFrame ⟨cur⟩ ⟨idx⟩ =
      some (⟨idx⟩, [FileTransferEvent.SegmentSent idx (idx * chunkSizeLimit)])) := by
  unfold handleAckFrame
  constructor
  · by_cases hlt : idx < cur <;> simp [hlt]
  · intro hle
    rw [if_neg (by simp; omega)]

/-- C4 (witness for the amended claim): the accepting branch at a concrete
state. -/
theorem ack_check_amended_witness :
    handleAckFrame ⟨3⟩ ⟨5⟩ =
      some (⟨5⟩, [FileTransferEvent.SegmentSent 5 (5 * chunkSizeLimit)]) :=
  (ack_check_amended 3 5).2 (by decide)

/-- C5: on every non-terminal data frame the receiver appends the frame's
data and increments `windowed_recv_segments`, resetting it to 0 and
emitting exactly one ack carrying `segment_idx + 1` when it reaches 8, so
a session of `S` non-terminal data frames emits exactly `S / 8` acks (and
nothing but acks). -/
theorem ack_cadence (frames : List FileTransferDataFrame)
    (h : ∀ fr ∈ frames, fr.chunk_size ≠ 0) :
    (recvRun ⟨[], 0⟩ frames).2.length = frames.length / 8 ∧
    (∀ o ∈ (recvRun ⟨[], 0⟩ frames).2, o.isAck = true) ∧
    (∀ (st : RecvState) (fr : FileTransferDataFrame), fr.chunk_size ≠ 0 →
      recvStep st fr =
        if 7 ≤ st.windowed_recv_segments then
          (⟨st.file ++ fr.data, 0⟩, [AckOrEnd.ack (fr.segment_idx + 1)])
        else (⟨st.file ++ fr.data, st.windowed_recv_segments + 1⟩, [])) := by
  refine ⟨?_, recvRun_all_acks frames _ h, recvStep_nonterminal⟩
  have hc := recvRun_ack_count frames [] 0 h (by omega)
  simpa using hc

/-- C5 (witness): eight one-byte frames produce exactly one ack. -/
theorem ack_cadence_witness :
    (recvRun ⟨[], 0⟩ (List.replicate 8 ⟨0, 1, [42]⟩)).2.length = 1 := by
  have h := (ack_cadence (List.replicate 8 ⟨0, 1, [42]⟩) (by decide)).1
  rw [h]
  decide

/-- C6: a data frame with `chunk_size = 0` makes the receiver enqueue
exactly one `EndSession` and return with its state — output file and
`windowed_recv_segments` — untouched; in particular for the empty input
file the sender's only frame is the terminal empty frame and the receiver
immediately emits `EndSession`. -/
theorem terminal_frame_handling (st : RecvState) (fr : FileTransferDataFrame)
    (h : fr.chunk_size = 0) :
    recvStep st fr = (st, [AckOrEnd.endSession]) ∧
    sentFrames [] = [⟨0, 0, []⟩] ∧
    (recvRun ⟨[], 0⟩ (sentFrames [])).2 = [AckOrEnd.endSession] := by
  refine ⟨?_, ?_, ?_⟩
  · unfold recvStep
    rw [if_pos h]
  · unfold sentFrames
    rw [sendLoop_nil]
  · unfold sentFrames
    rw [sendLoop_nil]
    decide

/-- C6 (witness): the terminal frame leaves a concrete receiver state
unchanged and emits `EndSession`. -/
theorem terminal_frame_handling_witness :
    recvStep ⟨[1, 2], 3⟩ ⟨5, 0, []⟩ = (⟨[1, 2], 3⟩, [AckOrEnd.endSession]) :=
  (terminal_frame_handling ⟨[1, 2], 3⟩ ⟨5, 0, []⟩ rfl).1

/-- C7 (code bug): the sender's loop does emit the terminal empty frame as
its last frame, but it never delivers a `Complete` event — the loop body
contains no callback invocation, although the comment above its EOF test
says the complete event should be fired there, and the `Complete` variant
is never constructed anywhere in the crate. -/
theorem complete_event_never_fired (file : List Nat) :
    (sentEvents file).count FileTransferEvent.Complete = 0 ∧
    ((sentFrames file).getLast?).map FileTransferDataFrame.chunk_size = some 0 := by
  constructor
  · unfold sentEvents
    rw [sendLoop_events]
    rfl
  · exact sendLoop_getLast file 0

/-- C8 (counterexample): a type-3 payload declaring `chunk_size = 5` with
zero data bytes remaining parses successfully — the parser zero-pads — it
does not fail with an error. -/
theorem data_parse_counterexample :
    FileTransferDataFrame.try_parse 3 [1, 0, 0, 0, 5, 0, 0, 0] =
      some (FrameParsingResult.Ok ⟨1, 5, [0, 0, 0, 0, 0]⟩) ∧
    FileTransferDataFrame.try_parse 3 [1, 0, 0, 0, 5, 0, 0, 0] ≠
      some FrameParsingResult.Err := by
  constructor <;> decide

/-- C8 (amended): when fewer bytes remain in the declared payload than the
declared `chunk_size`, parsing a type-3 payload of at least 8 bytes does
not fail: it succeeds and the data is padded with zero bytes up to
`chunk_size` (`Vec::resize`). -/
theorem data_parse_zero_pads (buf : List Nat) (h8 : 8 ≤ buf.length)
    (hshort : buf.length - 8 ≤ leToU32 ((buf.take 8).drop 4)) :
    FileTransferDataFrame.try_parse 3 buf =
      some (FrameParsingResult.Ok
        ⟨leToU32 (buf.take 4), leToU32 ((buf.take 8).drop 4),
         buf.drop 8 ++
           List.replicate (leToU32 ((buf.take 8).drop 4) - (buf.length - 8)) 0⟩) := by
  unfold FileTransferDataFrame.try_parse
  rw [if_neg (by decide)]
  have hs1 : slice buf 0 4 = some ((buf.take 4).drop 0) := if_pos (by constructor <;> omega)
  have hs2 : slice buf 4 8 = some ((buf.take 8).drop 4) := if_pos (by constructor <;> omega)
  have hso : splitOff buf 8 = some (buf.drop 8) := if_pos h8
  have hr1 : readU32LE ((buf.take 4).drop 0) = some (leToU32 ((buf.take 4).drop 0)) :=
    if_pos (by simp [List.length_take, List.length_drop]; omega)
  have hr1b : readU32LE (buf.take 4) = some (leToU32 (buf.take 4)) :=
    if_pos (by simp [List.length_take]; omega)
  have hr2 : readU32LE ((buf.take 8).drop 4) = some (leToU32 ((buf.take 8).drop 4)) :=
    if_pos (by simp [List.length_take, List.length_drop]; omega)
  simp [hs1, hs2, hso, hr1, hr1b, hr2]
  unfold listResize
  by_cases hcs : leToU32 ((buf.take 8).drop 4) ≤ (buf.drop 8).length
  · rw [if_pos hcs]
    have hlen : (buf.drop 8).length = buf.length - 8 := by simp
    have heq : leToU32 ((buf.take 8).drop 4) = buf.length - 8 := by omega
    rw [List.take_of_length_le (by omega)]
    rw [heq]
    simp
  · rw [if_neg hcs]
    simp [List.length_drop]

/-- C8 (witness for the amended claim): a 9-byte payload declaring 6 data
bytes but carrying only 1 is zero-padded to 6 bytes. -/
theorem data_parse_zero_pads_witness :
    FileTransferDataFrame.try_parse 3 [2, 0, 0, 0, 6, 0, 0, 0, 9] =
      some (FrameParsingResult.Ok ⟨2, 6, [9, 0, 0, 0, 0, 0]⟩) := by
  have h := data_parse_zero_pads [2, 0, 0, 0, 6, 0, 0, 0, 9] (by decide) (by decide)
  rw [h]
  decide

/-- Reading back the two little-endian bytes of a `u16` recovers it. -/
theorem leToU16_bytes (n : Nat) (h : n < 65536) :
    leToU16 [n % 256, n / 256 % 256] = n := by
  simp only [leToU16, List.getD_cons_zero, List.getD_cons_succ]
  omega

/-- Reading back the four little-endian bytes of a `u32` recovers it. -/
theorem leToU32_bytes (n : Nat) (h : n < 4294967296) :
    leToU32 [n % 256, n / 256 % 256, n / 65536 % 256, n / 16777216 % 256] = n := by
  simp only [leToU32, List.getD_cons_zero, List.getD_cons_succ]
  omega

/-- C9: for every `(frame_type, payload)` with `frame_type` a `u16` and
`|payload| ≤ 2^32 - 1`, encoding the frame as
`u16_le(frame_type) || u32_le(len) || payload` and then decoding a header
and payload from those bytes yields the same pair. -/
theorem frame_roundtrip (frame_type : Nat) (payload : List Nat)
    (h1 : frame_type < 65536) (h2 : payload.length < 4294967296) :
    handleIncomingFrame (frameWithHeaderToBytes frame_type payload) =
      some (frame_type, payload) := by
  unfold frameWithHeaderToBytes handleIncomingFrame
  simp only [u16ToLe, u32ToLe, List.cons_append, List.nil_append]
  rw [if_neg (by simp only [List.length_cons]; omega)]
  have htake2 : ∀ (l : List Nat) (x0 x1 y0 y1 y2 y3 : Nat),
      (x0 :: x1 :: y0 :: y1 :: y2 :: y3 :: l).take 2 = [x0, x1] :=
    fun _ _ _ _ _ _ _ => rfl
  have hdrop2take4 : ∀ (l : List Nat) (x0 x1 y0 y1 y2 y3 : Nat),
      ((x0 :: x1 :: y0 :: y1 :: y2 :: y3 :: l).drop 2).take 4 = [y0, y1, y2, y3] :=
    fun _ _ _ _ _ _ _ => rfl
  have hdrop6 : ∀ (l : List Nat) (x0 x1 y0 y1 y2 y3 : Nat),
      (x0 :: x1 :: y0 :: y1 :: y2 :: y3 :: l).drop 6 = l := fun _ _ _ _ _ _ _ => rfl
  rw [htake2, hdrop2take4, hdrop6]
  rw [leToU16_bytes frame_type h1, leToU32_bytes payload.length h2]
  rw [if_neg (lt_irrefl payload.length)]
  rw [List.take_length]

/-- C9 (witness): a concrete frame of type 3 with a two-byte payload
round-trips through encode then decode. -/
theorem frame_roundtrip_witness :
    handleIncomingFrame (frameWithHeaderToBytes 3 [7, 8]) = some (3, [7, 8]) :=
  frame_roundtrip 3 [7, 8] (by decide) (by decide)

/-- C10: a type-3 payload shorter than its 8-byte integer prefix, or a
type-4 payload shorter than its 4-byte prefix, makes `try_parse` panic
(out-of-range slice indexing, modelled as `none`) instead of returning any
`FrameParsingResult`; with at least that many bytes both parsers return a
result. -/
theorem short_payload_panics (buf : List Nat) :
    (buf.length < 8 → FileTransferDataFrame.try_parse 3 buf = none) ∧
    (buf.length < 4 → FileTransferAckFrame.try_parse 4 buf = none) ∧
    (8 ≤ buf.length → (FileTransferDataFrame.try_parse 3 buf).isSome = true) ∧
    (4 ≤ buf.length → (FileTransferAckFrame.try_parse 4 buf).isSome = true) := by
  refine ⟨?_, ?_, ?_, ?_⟩
  · intro h
    unfold FileTransferDataFrame.try_parse
    rw [if_neg (by decide)]
    by_cases h4 : 4 ≤ buf.length
    · have hs1 : slice buf 0 4 = some ((buf.take 4).drop 0) := if_pos ⟨by omega, h4⟩
      have hs2 : slice buf 4 8 = none := if_neg (by omega)
      simp [hs1, hs2, readU32LE, List.length_take, List.length_drop]
    · have hs1 : slice buf 0 4 = none := if_neg (by omega)
      simp [hs1]
  · intro h
    unfold FileTransferAckFrame.try_parse
    rw [if_neg (by decide)]
    have hnone : readU32LE buf = none := if_neg (by omega)
    simp [hnone]
  · intro h8
    unfold FileTransferDataFrame.try_parse
    rw [if_neg (by decide)]
    have hs1 : slice buf 0 4 = some ((buf.take 4).drop 0) := if_pos ⟨by omega, by omega⟩
    have hs2 : slice buf 4 8 = some ((buf.take 8).drop 4) := if_pos ⟨by omega, h8⟩
    have hso : splitOff buf 8 = some (buf.drop 8) := if_pos h8
    have hr1 : readU32LE ((buf.take 4).drop 0) = some (leToU32 ((buf.take 4).drop 0)) :=
      if_pos (by simp [List.length_take, List.length_drop]; omega)
    have hr1b : readU32LE (buf.take 4) = some (leToU32 (buf.take 4)) :=
      if_pos (by simp [List.length_take]; omega)
    have hr2 : readU32LE ((buf.take 8).drop 4) = some (leToU32 ((buf.take 8).drop 4)) :=
      if_pos (by simp [List.length_take, List.length_drop]; omega)
    simp [hs1, hs2, hso, hr1, hr1b, hr2]
  · intro h4
    unfold FileTransferAckFrame.try_parse
    rw [if_neg (by decide)]
    have hsome : readU32LE buf = some (leToU32 buf) := if_pos h4
    simp [hsome]

/-- C10 (witness): the empty payload makes both parsers panic. -/
theorem short_payload_panics_witness :
    FileTransferDataFrame.try_parse 3 [] = none ∧
    FileTransferAckFrame.try_parse 4 [] = none :=
  ⟨(short_payload_panics []).1 (by decide), (short_payload_panics []).2.1 (by decide)⟩

end Icedrop
